import Mathlib

/-!
# Baseline-Copilot: shallow embedding of the feature-detection and scoring engine

This file embeds the core of the Baseline-Copilot repository in Lean 4:

* `src/src/index.js`, class `BaselineAnalyzer` — the feature catalog
  (`loadFeatureDatabase`), the line-by-line matcher (`analyzeCode`), the
  severity mapping (`getSeverity`), and the aggregation/scoring pass
  (`enrichResults`, `calculateRiskScore`, `getRiskLevel`, `groupBySeverity`,
  `generateSuggestions`).
* `src/cli/index.ts`, class `EnhancedBaselineAnalyzer` — the date-derived
  availability classifier (`getBaselineStatus`), the usage-weighted risk
  score (`calculateAdvancedRiskScore`), and the catalog-loading fallback
  (`loadOfficialData`, `loadLocalFeatureDatabase`).

JS numbers are modelled as `ℚ` (all values occurring in the scoring code are
small exact decimals).  Source text is modelled as `String`; line scanning
works over `List Char`.  A regular-expression pattern is modelled by the
function it denotes under JS `String.prototype.match` with a non-global
regex: a map from a line to the first (leftmost) matched substring, or
`none`.  Each of the ten concrete catalog patterns is implemented below as a
character-level matcher with exactly that first-match semantics; the
patterns involved (`literal`, case-insensitive literal alternation,
`\.at\s*\(\s*-?\d+\s*\)`, `fetch\s*\(`, `&\s*[:{.#]`) are all ones for which
greedy maximal-munch scanning agrees with JS backtracking semantics, since
no repeated class overlaps the character required after it.  `\s` is
modelled by its ASCII subset (the inputs of interest are source text).

Presentation-only string fields that no claim mentions (`browsers`
tables, `description`) are omitted from the records; every field used by
the matching, classification, scoring or suggestion logic is kept.
-/

/-- Availability tier of a feature (`status` in the source).  The source
stores these as the four string literals `'widely-available'`,
`'newly-available'`, `'limited'`, `'unsupported'`. -/
inductive Status where
  | widelyAvailable
  | newlyAvailable
  | limited
  | unsupported
deriving DecidableEq, Repr

/-- Severity of an occurrence: the strings `'info'`, `'warning'`, `'error'`
in the source. -/
inductive Severity where
  | info
  | warning
  | error
deriving DecidableEq, Repr

/-- Risk level: the strings `'low'`, `'medium'`, `'high'` in the source. -/
inductive RiskLevel where
  | low
  | medium
  | high
deriving DecidableEq, Repr

/-- ASCII approximation of the JS regex class `\s` (space, tab, newline,
carriage return, vertical tab, form feed). -/
def isJsSpace (c : Char) : Bool :=
  c = ' ' || c = '\t' || c = '\n' || c = '\r' || c = '\x0b' || c = '\x0c'

/-- `JS String.prototype.indexOf` over character lists: index of the first
occurrence of `needle` in `haystack`, or `-1` when absent (the source uses
`line.indexOf(match[0])`). -/
def firstIndexOfFrom (needle : List Char) : List Char → Option Nat
  | [] => if needle = [] then some 0 else none
  | c :: cs =>
    if needle.isPrefixOf (c :: cs) then some 0
    else (firstIndexOfFrom needle cs).map (· + 1)

/-- JS `indexOf` with the `-1` convention. -/
def jsIndexOf (haystack needle : List Char) : Int :=
  match firstIndexOfFrom needle haystack with
  | some n => (n : Int)
  | none => -1

/-- JS `String.prototype.trim` (ASCII whitespace model). -/
def jsTrim (s : List Char) : List Char :=
  ((s.dropWhile isJsSpace).reverse.dropWhile isJsSpace).reverse

/-- Lift an anchored matcher (matching only at the start of its argument)
to the leftmost-match semantics of a JS regex: try each start position left
to right and return the first success. -/
def firstMatch (mAt : List Char → Option (List Char)) : List Char → Option (List Char)
  | [] => mAt []
  | c :: rest => (mAt (c :: rest)).orElse fun _ => firstMatch mAt rest

/-- Anchored matcher for a case-sensitive literal. -/
def litAt (pat : List Char) (s : List Char) : Option (List Char) :=
  if pat.isPrefixOf s then some pat else none

/-- Anchored matcher for a case-insensitive alternation of literals: the
first alternative (in order) that matches at this position wins, and the
matched text is the slice of the line (original case), as with a JS `/i`
regex. -/
def ciAltAt (alts : List (List Char)) (s : List Char) : Option (List Char) :=
  (alts.find? fun a => (a.map Char.toLower).isPrefixOf (s.map Char.toLower)).map
    fun a => s.take a.length

/-- Anchored matcher for `/\.at\s*\(\s*-?\d+\s*\)/` (feature `array-at`). -/
def arrayAtAt (s : List Char) : Option (List Char) :=
  match s with
  | '.' :: 'a' :: 't' :: rest =>
    let ws1 := rest.takeWhile isJsSpace
    match rest.dropWhile isJsSpace with
    | '(' :: r2 =>
      let ws2 := r2.takeWhile isJsSpace
      let r3 := r2.dropWhile isJsSpace
      let dash : List Char := match r3 with | '-' :: _ => ['-'] | _ => []
      let r4 : List Char := match r3 with | '-' :: t => t | _ => r3
      let ds := r4.takeWhile Char.isDigit
      if ds = [] then none
      else
        let r5 := r4.dropWhile Char.isDigit
        let ws3 := r5.takeWhile isJsSpace
        match r5.dropWhile isJsSpace with
        | ')' :: _ =>
          some ('.' :: 'a' :: 't' :: (ws1 ++ '(' :: (ws2 ++ dash ++ ds ++ ws3 ++ [')'])))
        | _ => none
    | _ => none
  | _ => none

/-- Anchored matcher for `/fetch\s*\(/` (feature `fetch-api`). -/
def fetchAt (s : List Char) : Option (List Char) :=
  if ("fetch".data).isPrefixOf s then
    let rest := s.drop 5
    let ws := rest.takeWhile isJsSpace
    match rest.dropWhile isJsSpace with
    | '(' :: _ => some ("fetch".data ++ ws ++ ['('])
    | _ => none
  else none

/-- Anchored matcher for `/&\s*[:{\.\#]/` (feature `css-nesting`). -/
def cssNestingAt (s : List Char) : Option (List Char) :=
  match s with
  | '&' :: rest =>
    let ws := rest.takeWhile isJsSpace
    match rest.dropWhile isJsSpace with
    | c :: _ =>
      if c = ':' || c = '\x7b' || c = '.' || c = '#' then some ('&' :: (ws ++ [c]))
      else none
    | [] => none
  | _ => none

/-- A feature descriptor, mirroring one entry of the `features` array in
`loadFeatureDatabase` (src/src/index.js).  `pattern` is the denotation of
the entry's regex under single, non-global matching. -/
structure Feature where
  id : String
  pattern : List Char → Option (List Char)
  name : String
  status : Status
  baseline : Option String
  polyfill : Option String
  fallback : Option String
  mdn : String

/-- Catalog entry `dialog-api`, pattern `/\.showModal\(\)|<dialog|HTMLDialogElement/i`. -/
def dialogFeature : Feature :=
  { id := "dialog-api"
    pattern := firstMatch (ciAltAt [".showModal()".data, "<dialog".data, "HTMLDialogElement".data])
    name := "HTML Dialog API"
    status := .newlyAvailable
    baseline := some "2022-03-14"
    polyfill := some "dialog-polyfill"
    fallback := some "Modal div with ARIA attributes"
    mdn := "https://developer.mozilla.org/docs/Web/HTML/Element/dialog" }

/-- Catalog entry `array-at`, pattern `/\.at\s*\(\s*-?\d+\s*\)/`. -/
def arrayAtFeature : Feature :=
  { id := "array-at"
    pattern := firstMatch arrayAtAt
    name := "Array.prototype.at()"
    status := .widelyAvailable
    baseline := some "2022-01-15"
    polyfill := none
    fallback := some "array[array.length - 1] or array.slice(-1)[0]"
    mdn := "https://developer.mozilla.org/docs/Web/JavaScript/Reference/Global_Objects/Array/at" }

/-- Catalog entry `optional-chaining`, pattern `/\?\./`. -/
def optionalChainingFeature : Feature :=
  { id := "optional-chaining"
    pattern := firstMatch (litAt "?.".data)
    name := "Optional Chaining (?.)"
    status := .widelyAvailable
    baseline := some "2020-04-21"
    polyfill := none
    fallback := some "Manual null/undefined checks"
    mdn := "https://developer.mozilla.org/docs/Web/JavaScript/Reference/Operators/Optional_chaining" }

/-- Catalog entry `nullish-coalescing`, pattern `/\?\?/`. -/
def nullishCoalescingFeature : Feature :=
  { id := "nullish-coalescing"
    pattern := firstMatch (litAt "??".data)
    name := "Nullish Coalescing (??)"
    status := .widelyAvailable
    baseline := some "2020-04-21"
    polyfill := none
    fallback := some "value != null ? value : defaultValue"
    mdn := "https://developer.mozilla.org/docs/Web/JavaScript/Reference/Operators/Nullish_coalescing_operator" }

/-- Catalog entry `temporal-api`, pattern `/Temporal\./`
(`baseline: null`, no fallback field). -/
def temporalFeature : Feature :=
  { id := "temporal-api"
    pattern := firstMatch (litAt "Temporal.".data)
    name := "Temporal API"
    status := .unsupported
    baseline := none
    polyfill := some "@js-temporal/polyfill"
    fallback := none
    mdn := "https://tc39.es/proposal-temporal/" }

/-- Catalog entry `object-hasown`, pattern `/Object\.hasOwn\(/`. -/
def objectHasOwnFeature : Feature :=
  { id := "object-hasown"
    pattern := firstMatch (litAt "Object.hasOwn(".data)
    name := "Object.hasOwn()"
    status := .newlyAvailable
    baseline := some "2022-01-15"
    polyfill := none
    fallback := some "Object.prototype.hasOwnProperty.call()"
    mdn := "https://developer.mozilla.org/docs/Web/JavaScript/Reference/Global_Objects/Object/hasOwn" }

/-- Catalog entry `container-queries`, pattern
`/@container|container-type:|container-name:/i`. -/
def containerQueriesFeature : Feature :=
  { id := "container-queries"
    pattern := firstMatch (ciAltAt ["@container".data, "container-type:".data, "container-name:".data])
    name := "CSS Container Queries"
    status := .newlyAvailable
    baseline := some "2023-02-14"
    polyfill := none
    fallback := some "Media queries with JavaScript"
    mdn := "https://developer.mozilla.org/docs/Web/CSS/CSS_Container_Queries" }

/-- Catalog entry `css-has`, pattern `/:has\(/i`. -/
def cssHasFeature : Feature :=
  { id := "css-has"
    pattern := firstMatch (ciAltAt [":has(".data])
    name := "CSS :has() Selector"
    status := .newlyAvailable
    baseline := some "2023-12-18"
    polyfill := none
    fallback := some "JavaScript-based selection"
    mdn := "https://developer.mozilla.org/docs/Web/CSS/:has" }

/-- Catalog entry `css-nesting`, pattern `/&\s*[:{\.\#]/`. -/
def cssNestingFeature : Feature :=
  { id := "css-nesting"
    pattern := firstMatch cssNestingAt
    name := "CSS Nesting"
    status := .newlyAvailable
    baseline := some "2023-03-28"
    polyfill := none
    fallback := some "Sass/SCSS preprocessing"
    mdn := "https://developer.mozilla.org/docs/Web/CSS/CSS_Nesting" }

/-- Catalog entry `fetch-api`, pattern `/fetch\s*\(/`. -/
def fetchApiFeature : Feature :=
  { id := "fetch-api"
    pattern := firstMatch fetchAt
    name := "Fetch API"
    status := .widelyAvailable
    baseline := some "2017-03-01"
    polyfill := none
    fallback := some "XMLHttpRequest or axios library"
    mdn := "https://developer.mozilla.org/docs/Web/API/Fetch_API" }

/-- The feature catalog built by `loadFeatureDatabase`: a `Map` keyed by
`id`, whose iteration order (used by `analyzeCode`) is insertion order,
i.e. the order of the `features` array literal. -/
def catalogFeatures : List Feature :=
  [dialogFeature, arrayAtFeature, optionalChainingFeature, nullishCoalescingFeature,
   temporalFeature, objectHasOwnFeature, containerQueriesFeature, cssHasFeature,
   cssNestingFeature, fetchApiFeature]

/-- One match record pushed by `analyzeCode` (src/src/index.js, lines
126–140).  `line` is 1-based; `column` is `line.indexOf(match[0]) + 1`;
`code` is the trimmed source line. -/
structure Occurrence where
  id : String
  feature : String
  line : Nat
  column : Int
  code : String
  status : Status
  baseline : Option String
  polyfill : Option String
  fallback : Option String
  mdn : String
  severity : Severity
  matchedText : String
deriving DecidableEq, Repr

/-- `getSeverity` (src/src/index.js lines 147–155 and src/cli/index.ts
lines 1141–1149, identical bodies): the fixed availability→severity table.
The source's `severityMap[status] || 'info'` default is unreachable here
because `Status` is the closed set of the four table keys. -/
def getSeverity (status : Status) : Severity :=
  match status with
  | .widelyAvailable => .info
  | .newlyAvailable => .warning
  | .limited => .warning
  | .unsupported => .error

/-- Split a character buffer on `'\n'` exactly as JS `code.split('\n')`
does: `n` separators yield `n + 1` (possibly empty) pieces, carriage
returns are kept. -/
def splitOnNl : List Char → List (List Char)
  | [] => [[]]
  | c :: cs =>
    if c = '\n' then [] :: splitOnNl cs
    else
      match splitOnNl cs with
      | [] => [[c]]
      | l :: ls => (c :: l) :: ls

/-- The inner `lines.forEach` of `analyzeCode` for a single feature:
attempt one (non-global) match per line; on success push one occurrence
built exactly as in the source. -/
def scanLines (feature : Feature) : Nat → List (List Char) → List Occurrence
  | _, [] => []
  | lineIndex, line :: rest =>
    (match feature.pattern line with
     | some m =>
       [{ id := feature.id
          feature := feature.name
          line := lineIndex + 1
          column := jsIndexOf line m + 1
          code := (jsTrim line).asString
          status := feature.status
          baseline := feature.baseline
          polyfill := feature.polyfill
          fallback := feature.fallback
          mdn := feature.mdn
          severity := getSeverity feature.status
          matchedText := m.asString }]
     | none => []) ++ scanLines feature (lineIndex + 1) rest

/-- JS truthiness of an optional string field (`undefined` and `""` are
falsy): used by the `results.filter(r => r.polyfill)` suggestion rule. -/
def jsTruthy : Option String → Bool
  | none => false
  | some s => s ≠ ""

/-- `calculateRiskScore` (src/src/index.js lines 180–190): fold the match
list, adding 15 per `error`, 5 per `warning`, 1 per `info`, capped at 100. -/
def calculateRiskScore (results : List Occurrence) : ℚ :=
  min 100 (results.foldl (fun score result =>
    match result.severity with
    | .error => score + 15
    | .warning => score + 5
    | .info => score + 1) 0)

/-- `getRiskLevel` (src/src/index.js lines 192–196; the identical body
appears in src/cli/index.ts lines 1337–1341). -/
def getRiskLevel (score : ℚ) : RiskLevel :=
  if score ≥ 40 then .high
  else if score ≥ 15 then .medium
  else .low

/-- Per-severity counts (`groupBySeverity` builds a JS object of counts;
absent keys read as 0). -/
structure SeverityCounts where
  error : Nat
  warning : Nat
  info : Nat
deriving DecidableEq, Repr

/-- `groupBySeverity` (src/src/index.js lines 198–203). -/
def groupBySeverity (results : List Occurrence) : SeverityCounts :=
  results.foldl (fun acc result =>
    match result.severity with
    | .error => { acc with error := acc.error + 1 }
    | .warning => { acc with warning := acc.warning + 1 }
    | .info => { acc with info := acc.info + 1 }) ⟨0, 0, 0⟩

/-- Kind of a generated suggestion: the strings `'error'`, `'warning'`,
`'fix'` in the source. -/
inductive SuggestionType where
  | error
  | warning
  | fix
deriving DecidableEq, Repr

/-- One advisory message produced by `generateSuggestions`. -/
structure Suggestion where
  type : SuggestionType
  message : String
  action : String
deriving DecidableEq, Repr

/-- `generateSuggestions` (src/src/index.js lines 205–236): three fixed,
independent rules, evaluated (and hence emitted) in this order. -/
def generateSuggestions (results : List Occurrence) : List Suggestion :=
  let suggestions : List Suggestion := []
  let errorCount := (results.filter fun r => r.severity == Severity.error).length
  let warningCount := (results.filter fun r => r.severity == Severity.warning).length
  let suggestions := if errorCount > 0 then
    suggestions ++ [{ type := .error
                      message := toString errorCount ++ " unsupported feature" ++
                        (if errorCount > 1 then "s" else "") ++ " may break in older browsers"
                      action := "Add polyfills or implement fallbacks" }]
    else suggestions
  let suggestions := if warningCount > 2 then
    suggestions ++ [{ type := .warning
                      message := toString warningCount ++ " newly available features detected"
                      action := "Verify against your browser support requirements" }]
    else suggestions
  let hasPolyfills := (results.filter fun r => jsTruthy r.polyfill).length
  let suggestions := if hasPolyfills > 0 then
    suggestions ++ [{ type := .fix
                      message := toString hasPolyfills ++ " feature" ++
                        (if hasPolyfills > 1 then "s have" else " has") ++ " polyfill options available"
                      action := "Consider adding recommended polyfills" }]
    else suggestions
  suggestions

/-- The `summary` object of an analysis result. -/
structure AnalysisSummary where
  total : Nat
  riskScore : ℚ
  riskLevel : RiskLevel
  breakdown : SeverityCounts
  compatibilityScore : ℚ

/-- The `metadata` object (the wall-clock `analyzedAt` timestamp is
presentation-only and omitted). -/
structure AnalysisMetadata where
  linesOfCode : Nat
  charactersCount : Nat
deriving DecidableEq, Repr

/-- The structured result returned to the caller. -/
structure AnalysisResult where
  summary : AnalysisSummary
  issues : List Occurrence
  suggestions : List Suggestion
  metadata : AnalysisMetadata

/-- `enrichResults` (src/src/index.js lines 157–178). -/
def enrichResults (results : List Occurrence) (code : String) : AnalysisResult :=
  let riskScore := calculateRiskScore results
  { summary :=
      { total := results.length
        riskScore := riskScore
        riskLevel := getRiskLevel riskScore
        breakdown := groupBySeverity results
        compatibilityScore := max 0 (100 - riskScore) }
    issues := results
    suggestions := generateSuggestions results
    metadata :=
      { linesOfCode := (splitOnNl code.data).length
        charactersCount := code.length } }

/-- `analyzeCode` (src/src/index.js lines 118–145): split the text on
newlines, scan every catalog feature over every line (features outer,
lines inner), then aggregate.  The `language` argument is accepted and,
as in the source, not consulted by the matching pass. -/
def analyzeCode (code : String) (language : String) : AnalysisResult :=
  let lines := splitOnNl code.data
  let results := catalogFeatures.flatMap fun feature => scanLines feature 0 lines
  enrichResults results code

/-- The same pipeline with its failure channel made explicit: every JS
operation `analyzeCode` performs on an arbitrary string input (`split`,
non-global regex `match`, `indexOf`, `trim`, array pushes, arithmetic) is
total, so no step of the translation needs to signal an error. -/
def analyzeCodeE (code : String) (language : String) : Except String AnalysisResult := do
  let lines := splitOnNl code.data
  let results := catalogFeatures.flatMap fun feature => scanLines feature 0 lines
  pure (enrichResults results code)

/-- The `baseline` record of a web-features entry in the CLI
(`src/cli/index.ts`): the pair of threshold dates consulted by
`getBaselineStatus`.  Dates are modelled by their timestamp values
(`Date.valueOf`), which is what JS `Date` comparison operators compare;
the record's presentation-only `status` string is omitted. -/
structure BaselineInfo where
  low_date : Int
  high_date : Int
deriving DecidableEq, Repr

/-- `getBaselineStatus` (src/cli/index.ts lines 1070–1080).  The current
date (`new Date()` in the source) is passed explicitly as `now`, as the
spec requires for deterministic testing. -/
def getBaselineStatus (baseline : Option BaselineInfo) (now : Int) : Status :=
  match baseline with
  | none => .unsupported
  | some b =>
    if b.high_date ≤ now then .widelyAvailable
    else if b.low_date ≤ now then .newlyAvailable
    else .limited

/-- The `usage_stats` record of a Web Platform Dashboard entry
(src/cli/index.ts lines 938–972); only `percentage` is consulted by the
scorer. -/
structure UsageStats where
  percentage : ℚ
deriving DecidableEq, Repr

/-- The usage record attached to a CLI occurrence
(`usage: this.webPlatformData.get(id)`); the `developer_sentiment`
presentation fields are omitted. -/
structure UsageData where
  usage_stats : UsageStats
deriving DecidableEq, Repr

/-- A result record as consumed by `calculateAdvancedRiskScore`
(src/cli/index.ts): its `severity`, and its optional enrichment `usage`
data.  The remaining per-occurrence fields are identical in shape to
`Occurrence` and are not read by the CLI scorer. -/
structure EnhancedOccurrence where
  severity : Severity
  usage : Option UsageData
deriving DecidableEq, Repr

/-- `calculateAdvancedRiskScore` (src/cli/index.ts lines 1227–1247):
base score 15/5/1 by severity, multiplied — only when usage data is
present — by 1.5 (adoption < 20%), 0.8 (adoption > 60%) or 1.0,
then capped at 100. -/
def calculateAdvancedRiskScore (results : List EnhancedOccurrence) : ℚ :=
  min 100 (results.foldl (fun score result =>
    let baseScore : ℚ :=
      match result.severity with
      | .error => 15
      | .warning => 5
      | .info => 1
    let baseScore :=
      match result.usage with
      | some u =>
        baseScore * (if u.usage_stats.percentage < 20 then 1.5
                     else if u.usage_stats.percentage > 60 then 0.8 else 1.0)
      | none => baseScore
    score + baseScore) 0)

/-- Spec-side base score, following the spec's words: `baseScore` =
{error:15, warning:5, info:1}. -/
def specBaseScore : Severity → ℚ
  | .error => 15
  | .warning => 5
  | .info => 1

/-- Spec-side usage multiplier, following the spec's words: 1.0 by
default, or — when enrichment usage data is present — 1.5 if the adoption
percentage is < 20, 0.8 if it is > 60, and 1.0 otherwise. -/
def specUsageMultiplier (r : EnhancedOccurrence) : ℚ :=
  match r.usage with
  | none => 1
  | some u =>
    if u.usage_stats.percentage < 20 then 1.5
    else if u.usage_stats.percentage > 60 then 0.8
    else 1

/-- Spec-side risk score, following the spec's words:
`min(100, Σ baseScore(severity) × usageMultiplier(occurrence))`. -/
def specRiskScore (results : List EnhancedOccurrence) : ℚ :=
  min 100 ((results.map fun r => specBaseScore r.severity * specUsageMultiplier r).sum)

/-- Loading-relevant state of `EnhancedBaselineAnalyzer` (src/cli/index.ts
lines 792–800): the four maps populated by the constructor's data loaders,
each modelled as an association list (keyed by feature id), and the
`isDataLoaded` flag.  Map payloads are reduced to the fields the claims
consult (feature display name; adoption percentage); the remaining payload
fields are presentation data. -/
structure EnhancedState where
  features : List (String × String)
  webPlatformData : List (String × UsageData)
  performanceData : List (String × String)
  communityData : List (String × String)
  isDataLoaded : Bool
deriving DecidableEq, Repr

/-- The freshly constructed analyzer state: four empty maps, data not yet
loaded. -/
def initialEnhancedState : EnhancedState :=
  { features := []
    webPlatformData := []
    performanceData := []
    communityData := []
    isDataLoaded := false }

/-- `loadWebFeaturesData` (src/cli/index.ts lines 820–934): populates the
`features` map with the five embedded web-features entries. -/
def loadWebFeaturesData (st : EnhancedState) : EnhancedState :=
  { st with features := st.features ++
      [("dialog", "HTML Dialog Element"),
       ("array-at", "Array.prototype.at()"),
       ("optional-chaining", "Optional Chaining (?.)"),
       ("container-queries", "CSS Container Queries"),
       ("css-has", "CSS :has() Selector")] }

/-- `loadWebPlatformDashboardData` (src/cli/index.ts lines 936–977):
populates the usage map (adoption percentages 12.5, 35.7, 78.2). -/
def loadWebPlatformDashboardData (st : EnhancedState) : EnhancedState :=
  { st with webPlatformData := st.webPlatformData ++
      [("dialog", ⟨⟨(125 : ℚ) / 10⟩⟩),
       ("array-at", ⟨⟨(357 : ℚ) / 10⟩⟩),
       ("optional-chaining", ⟨⟨(782 : ℚ) / 10⟩⟩)] }

/-- `loadPerformanceData` (src/cli/index.ts lines 979–1017): populates the
performance map (payload summarised by the declared impact tier). -/
def loadPerformanceData (st : EnhancedState) : EnhancedState :=
  { st with performanceData := st.performanceData ++
      [("dialog", "minimal"), ("array-at", "minimal"), ("optional-chaining", "positive"),
       ("container-queries", "moderate"), ("css-has", "moderate")] }

/-- `loadCommunityData` (src/cli/index.ts lines 1019–1048): populates the
community map (payload summarised by its rating). -/
def loadCommunityData (st : EnhancedState) : EnhancedState :=
  { st with communityData := st.communityData ++
      [("dialog", "4.2"), ("array-at", "4.7"), ("optional-chaining", "4.9")] }

/-- `loadLocalFeatureDatabase` (src/cli/index.ts lines 1151–1155).  The
body of the source function consists of a single `console.log` call (its
comment reads "This would contain the original feature database as
backup"): it adds nothing to any of the maps, so the state is returned
unchanged. -/
def loadLocalFeatureDatabase (st : EnhancedState) : EnhancedState :=
  st

/-- `loadOfficialData` (src/cli/index.ts lines 802–818).  The outcome of
awaiting the four (simulated) fetches is passed as `fetched`: on success
the four loaders have populated the maps; on any rejection the `catch` arm
logs a warning, calls `loadLocalFeatureDatabase`, and sets `isDataLoaded`.
Both arms return normally — the function never re-throws. -/
def loadOfficialData (st : EnhancedState) (fetched : Except String Unit) : EnhancedState :=
  match fetched with
  | .ok _ =>
    let st := loadCommunityData (loadPerformanceData
      (loadWebPlatformDashboardData (loadWebFeaturesData st)))
    { st with isDataLoaded := true }
  | .error _ =>
    let st := loadLocalFeatureDatabase st
    { st with isDataLoaded := true }

/-- The per-occurrence contribution of the `switch` in
`calculateRiskScore` (15 / 5 / 1), named for use in the aggregation
lemmas. -/
def occurrenceBaseScore (r : Occurrence) : ℚ :=
  match r.severity with
  | .error => 15
  | .warning => 5
  | .info => 1

/-- The single occurrence that `analyzeCode "Temporal.x" "javascript"`
records (used as a concrete evaluation point). -/
def tempOccurrence : Occurrence :=
  { id := "temporal-api"
    feature := "Temporal API"
    line := 1
    column := 1
    code := "Temporal.x"
    status := .unsupported
    baseline := none
    polyfill := some "@js-temporal/polyfill"
    fallback := none
    mdn := "https://tc39.es/proposal-temporal/"
    severity := .error
    matchedText := "Temporal." }
lemma riskScore_foldl_eq (l : List Occurrence) : ∀ a : ℚ,
    (l.foldl (fun score result =>
      match result.severity with
      | .error => score + 15
      | .warning => score + 5
      | .info => score + 1) a) = a + (l.map occurrenceBaseScore).sum := by
  induction l with
  | nil => intro a; simp
  | cons r rs ih =>
    intro a
    simp only [List.foldl_cons, List.map_cons, List.sum_cons, ih]
    rcases r with ⟨i1, f1, l1, c1, cd1, st1, b1, p1, fb1, m1, sev, mt1⟩
    cases sev <;> simp [occurrenceBaseScore] <;> ring

lemma calculateRiskScore_eq (results : List Occurrence) :
    calculateRiskScore results = min 100 ((results.map occurrenceBaseScore).sum) := by
  unfold calculateRiskScore
  rw [riskScore_foldl_eq]
  ring_nf

lemma occurrenceBaseScore_nonneg (r : Occurrence) : 0 ≤ occurrenceBaseScore r := by
  unfold occurrenceBaseScore
  rcases r with ⟨i1, f1, l1, c1, cd1, st1, b1, p1, fb1, m1, sev, mt1⟩
  cases sev <;> norm_num

lemma sum_baseScore_nonneg (l : List Occurrence) : 0 ≤ (l.map occurrenceBaseScore).sum := by
  apply List.sum_nonneg
  intro x hx
  obtain ⟨r, _, rfl⟩ := List.mem_map.mp hx
  exact occurrenceBaseScore_nonneg r

lemma calculateRiskScore_nonneg (results : List Occurrence) : 0 ≤ calculateRiskScore results := by
  rw [calculateRiskScore_eq]
  exact le_min (by norm_num) (sum_baseScore_nonneg results)

lemma calculateRiskScore_le (results : List Occurrence) : calculateRiskScore results ≤ 100 :=
  min_le_left _ _

/-- C1: for every input text `t`, `analyze(t).summary.compatibilityScore`
equals `max(0, 100 - riskScore)`; consequently it always lies in [0, 100],
and — since `riskScore` is capped at 100 — it equals `100 - riskScore`
unconditionally (the `riskScore > 100` branch of the claim is vacuous). -/
theorem analyze_compatibilityScore_spec (code lang : String) :
    (analyzeCode code lang).summary.compatibilityScore
        = max 0 (100 - (analyzeCode code lang).summary.riskScore) ∧
    0 ≤ (analyzeCode code lang).summary.compatibilityScore ∧
    (analyzeCode code lang).summary.compatibilityScore ≤ 100 ∧
    (analyzeCode code lang).summary.riskScore ≤ 100 ∧
    (analyzeCode code lang).summary.compatibilityScore
        = 100 - (analyzeCode code lang).summary.riskScore := by
  have key : ∀ (results : List Occurrence) (c : String),
      (enrichResults results c).summary.compatibilityScore
          = max 0 (100 - (enrichResults results c).summary.riskScore) ∧
      0 ≤ (enrichResults results c).summary.compatibilityScore ∧
      (enrichResults results c).summary.compatibilityScore ≤ 100 ∧
      (enrichResults results c).summary.riskScore ≤ 100 ∧
      (enrichResults results c).summary.compatibilityScore
          = 100 - (enrichResults results c).summary.riskScore := by
    intro results c
    have h0 := calculateRiskScore_nonneg results
    have h100 := calculateRiskScore_le results
    have hrs : (enrichResults results c).summary.riskScore = calculateRiskScore results := rfl
    have hcs : (enrichResults results c).summary.compatibilityScore
        = max 0 (100 - calculateRiskScore results) := rfl
    refine ⟨by rw [hcs, hrs], ?_, ?_, by rw [hrs]; exact h100, ?_⟩
    · rw [hcs]; exact le_max_left _ _
    · rw [hcs]; rw [max_eq_right (by linarith)]; linarith
    · rw [hcs, hrs, max_eq_right (by linarith)]
  exact key _ _

/-- C5: the derived risk level is `high` iff the risk score is ≥ 40,
`medium` iff it is in [15, 40), and `low` iff it is < 15; the boundary
values 40 and 15 belong to the higher tier. -/
theorem getRiskLevel_spec (s : ℚ) :
    (getRiskLevel s = RiskLevel.high ↔ 40 ≤ s) ∧
    (getRiskLevel s = RiskLevel.medium ↔ 15 ≤ s ∧ s < 40) ∧
    (getRiskLevel s = RiskLevel.low ↔ s < 15) := by
  unfold getRiskLevel
  split_ifs with h1 h2 <;>
    refine ⟨?_, ?_, ?_⟩ <;>
    simp_all <;>
    first
      | linarith
      | (constructor <;> intro h <;> linarith)

/-- C9: date-derived availability.  For a feature descriptor with a pair of
baseline threshold dates and a fixed current date `now`, the derived
availability is `widely-available` exactly when the high date has passed
(`high_date ≤ now`), `newly-available` exactly when only the low date has
passed, `limited` exactly when neither has passed, and `unsupported`
exactly when the baseline record is absent.  Totality of
`getBaselineStatus` (its codomain is the closed `Status` type) is the
"never null" part of the claim. -/
theorem getBaselineStatus_spec (b : Option BaselineInfo) (now : Int) :
    (getBaselineStatus b now = Status.unsupported ↔ b = none) ∧
    (getBaselineStatus b now = Status.widelyAvailable ↔
      ∃ d, b = some d ∧ d.high_date ≤ now) ∧
    (getBaselineStatus b now = Status.newlyAvailable ↔
      ∃ d, b = some d ∧ now < d.high_date ∧ d.low_date ≤ now) ∧
    (getBaselineStatus b now = Status.limited ↔
      ∃ d, b = some d ∧ now < d.high_date ∧ now < d.low_date) := by
  cases b with
  | none => simp [getBaselineStatus]
  | some d =>
    simp only [getBaselineStatus]
    split_ifs with h1 h2 <;> simp_all <;> omega

/-- C8: totality / no-throw.  For every string input (arbitrary,
including malformed source) and every language hint, the per-call pipeline
with an explicit failure channel (`analyzeCodeE`) always returns
`Except.ok`, agreeing with the total function `analyzeCode`: no step of
the per-call analysis signals an error. -/
theorem analyzeCodeE_total (code lang : String) :
    analyzeCodeE code lang = Except.ok (analyzeCode code lang) ∧
    (analyzeCodeE code lang).isOk = true :=
  ⟨rfl, rfl⟩

/-- C2: for every list of occurrences, the computed risk score equals
`min(100, Σ baseScore(severity) × usageMultiplier(occurrence))`, with
`baseScore` = {error: 15, warning: 5, info: 1} and `usageMultiplier`
defaulting to 1.0, or — when enrichment usage data is present — 1.5 if
the adoption percentage is < 20, 0.8 if it is > 60, and 1.0 otherwise
(`specRiskScore` transcribes the spec's formula). -/
theorem calculateAdvancedRiskScore_spec (results : List EnhancedOccurrence) :
    calculateAdvancedRiskScore results = specRiskScore results := by
  have hfold : ∀ (l : List EnhancedOccurrence) (a : ℚ),
      (l.foldl (fun score result =>
        let baseScore : ℚ :=
          match result.severity with
          | .error => 15
          | .warning => 5
          | .info => 1
        let baseScore :=
          match result.usage with
          | some u =>
            baseScore * (if u.usage_stats.percentage < 20 then 1.5
                         else if u.usage_stats.percentage > 60 then 0.8 else 1.0)
          | none => baseScore
        score + baseScore) a)
      = a + (l.map fun r => specBaseScore r.severity * specUsageMultiplier r).sum := by
    intro l
    induction l with
    | nil => intro a; simp
    | cons r rs ih =>
      intro a
      simp only [List.foldl_cons, List.map_cons, List.sum_cons, ih]
      rcases r with ⟨sev, usage⟩
      cases sev <;> rcases usage with _ | ⟨⟨p⟩⟩ <;>
        simp only [specBaseScore, specUsageMultiplier] <;>
        (try split_ifs) <;> ring
  unfold calculateAdvancedRiskScore specRiskScore
  rw [hfold]
  ring_nf

/-- C10 (evaluation at the failing input): when the official-data fetch
fails, `loadOfficialData` recovers without throwing and marks the data
loaded — but the `loadLocalFeatureDatabase` fallback leaves the state
unchanged, so the feature table stays empty, whereas the success path
loads a non-empty table.  The claimed "smaller embedded feature table"
is never loaded: the fallback is a stub. -/
theorem loadOfficialData_fallback (st : EnhancedState) (e : String) :
    loadOfficialData st (Except.error e)
        = { loadLocalFeatureDatabase st with isDataLoaded := true } ∧
    (loadOfficialData initialEnhancedState (Except.error e)).features = [] ∧
    (loadOfficialData initialEnhancedState (Except.error e)).isDataLoaded = true ∧
    (loadOfficialData initialEnhancedState (Except.ok ())).features ≠ [] :=
  ⟨rfl, rfl, rfl, by decide⟩

lemma mem_scanLines_status (f : Feature) :
    ∀ (L : List (List Char)) (j : Nat) (occ : Occurrence), occ ∈ scanLines f j L →
      occ.status = f.status ∧ occ.severity = getSeverity f.status := by
  intro L
  induction L with
  | nil => intro j occ h; simp [scanLines] at h
  | cons l rest ih =>
    intro j occ h
    simp only [scanLines] at h
    rcases List.mem_append.mp h with h1 | h2
    · cases hp : f.pattern l with
      | some m =>
        rw [hp] at h1
        simp only [List.mem_singleton] at h1
        subst h1
        exact ⟨rfl, rfl⟩
      | none => rw [hp] at h1; simp at h1
    · exact ih (j + 1) occ h2

/-- C3: every occurrence produced by `analyze` carries exactly the
severity obtained from its availability status via the fixed mapping
widely-available→info, newly-available→warning, limited→warning,
unsupported→error (`getSeverity`); no occurrence's severity arises any
other way. -/
theorem occurrence_severity_spec (code lang : String) (occ : Occurrence)
    (h : occ ∈ (analyzeCode code lang).issues) :
    occ.severity = getSeverity occ.status := by
  have h1 : (analyzeCode code lang).issues
      = catalogFeatures.flatMap fun f => scanLines f 0 (splitOnNl code.data) := rfl
  rw [h1] at h
  obtain ⟨f, _, hf⟩ := List.mem_flatMap.mp h
  obtain ⟨hstatus, hsev⟩ := mem_scanLines_status f _ _ _ hf
  rw [hsev, hstatus]

/-- C3 witness: the hypotheses of `occurrence_severity_spec` hold at the
concrete input `"Temporal.x"`, whose single recorded occurrence is
`tempOccurrence`. -/
theorem occurrence_severity_spec_witness :
    tempOccurrence ∈ (analyzeCode "Temporal.x" "javascript").issues ∧
    tempOccurrence.severity = getSeverity tempOccurrence.status :=
  ⟨by decide, occurrence_severity_spec "Temporal.x" "javascript" tempOccurrence (by decide)⟩

/-- C6: suggestions are generated by three fixed independent rules in a
fixed order: the error rule fires iff the error-severity count is > 0,
the warning rule iff the warning-severity count is > 2, and the
polyfill rule iff some occurrence has a truthy (non-empty) `polyfill`
field; any subset of rules may fire, and the output is the concatenation
of the three rule outputs in rule order. -/
theorem generateSuggestions_spec (results : List Occurrence) :
    (generateSuggestions results =
      (if (results.filter fun r => r.severity == Severity.error).length > 0 then
        [{ type := SuggestionType.error
           message := toString (results.filter fun r => r.severity == Severity.error).length ++
             " unsupported feature" ++
             (if (results.filter fun r => r.severity == Severity.error).length > 1 then "s" else "") ++
             " may break in older browsers"
           action := "Add polyfills or implement fallbacks" }] else [])
      ++ (if (results.filter fun r => r.severity == Severity.warning).length > 2 then
        [{ type := SuggestionType.warning
           message := toString (results.filter fun r => r.severity == Severity.warning).length ++
             " newly available features detected"
           action := "Verify against your browser support requirements" }] else [])
      ++ (if (results.filter fun r => jsTruthy r.polyfill).length > 0 then
        [{ type := SuggestionType.fix
           message := toString (results.filter fun r => jsTruthy r.polyfill).length ++
             " feature" ++
             (if (results.filter fun r => jsTruthy r.polyfill).length > 1 then "s have" else " has") ++
             " polyfill options available"
           action := "Consider adding recommended polyfills" }] else [])) ∧
    ((∃ s, s ∈ generateSuggestions results ∧ s.type = SuggestionType.error)
      ↔ (results.filter fun r => r.severity == Severity.error).length > 0) ∧
    ((∃ s, s ∈ generateSuggestions results ∧ s.type = SuggestionType.warning)
      ↔ (results.filter fun r => r.severity == Severity.warning).length > 2) ∧
    ((∃ s, s ∈ generateSuggestions results ∧ s.type = SuggestionType.fix)
      ↔ (results.filter fun r => jsTruthy r.polyfill).length > 0) := by
  simp only [generateSuggestions]
  split_ifs <;> simp_all

lemma splitOnNl_ne_nil (s : List Char) : splitOnNl s ≠ [] := by
  cases s with
  | nil => simp [splitOnNl]
  | cons c cs =>
    simp only [splitOnNl]
    split_ifs
    · simp
    · cases splitOnNl cs <;> simp

lemma splitOnNl_append (xs ys : List Char) :
    splitOnNl (xs ++ '\n' :: ys) = splitOnNl xs ++ splitOnNl ys := by
  induction xs with
  | nil => simp [splitOnNl]
  | cons c cs ih =>
    by_cases hc : c = '\n'
    · subst hc
      simp [splitOnNl, List.append_eq, ih]
    · simp only [List.cons_append, splitOnNl, List.append_eq, ih, if_neg hc]
      cases h : splitOnNl cs with
      | nil => exact absurd h (splitOnNl_ne_nil cs)
      | cons l ls => simp

lemma splitOnNl_no_newline (ys : List Char) (h : '\n' ∉ ys) : splitOnNl ys = [ys] := by
  induction ys with
  | nil => rfl
  | cons c cs ih =>
    simp only [List.mem_cons, not_or] at h
    simp only [splitOnNl, if_neg (Ne.symm h.1)]
    rw [ih h.2]

lemma scanLines_append (f : Feature) (L1 : List (List Char)) :
    ∀ (L2 : List (List Char)) (j : Nat),
      scanLines f j (L1 ++ L2) = scanLines f j L1 ++ scanLines f (j + L1.length) L2 := by
  induction L1 with
  | nil => intro L2 j; simp [scanLines]
  | cons l rest ih =>
    intro L2 j
    simp only [List.cons_append, scanLines, List.append_eq, List.length_cons, ih,
      List.append_assoc]
    have h2 : j + 1 + rest.length = j + (rest.length + 1) := by omega
    rw [h2]

lemma sum_map_flatMap_append {α β : Type} (g : β → ℚ) (u v : α → List β) (fs : List α) :
    ((fs.flatMap fun f => u f ++ v f).map g).sum
      = ((fs.flatMap u).map g).sum + ((fs.flatMap v).map g).sum := by
  induction fs with
  | nil => simp
  | cons f fs ih =>
    simp only [List.flatMap_cons, List.map_append, List.sum_append, ih]
    ring

lemma sum_flatMap_scan_append (F : List Feature) (L1 L2 : List (List Char)) :
    (((F.flatMap fun f => scanLines f 0 (L1 ++ L2)).map occurrenceBaseScore).sum) =
      (((F.flatMap fun f => scanLines f 0 L1).map occurrenceBaseScore).sum) +
      (((F.flatMap fun f => scanLines f L1.length L2).map occurrenceBaseScore).sum) := by
  have h : (F.flatMap fun f => scanLines f 0 (L1 ++ L2))
      = F.flatMap fun f => scanLines f 0 L1 ++ scanLines f L1.length L2 := by
    simp only [scanLines_append, Nat.zero_add]
  rw [h, sum_map_flatMap_append]

/-- C7: monotonicity.  Appending (as an additional line) a line that
contains a match of an unsupported (error-severity) catalog feature never
decreases the risk score of the analysis. -/
theorem riskScore_monotone (t l lang : String) (hnl : '\n' ∉ l.data)
    (hf : ∃ f, f ∈ catalogFeatures ∧ f.status = Status.unsupported ∧
      (f.pattern l.data).isSome = true) :
    (analyzeCode t lang).summary.riskScore ≤
      (analyzeCode (t ++ "\n" ++ l) lang).summary.riskScore := by
  clear hf
  have hdata : (t ++ "\n" ++ l).data = t.data ++ '\n' :: l.data := by
    simp [String.data_append]
  have hold : (analyzeCode t lang).summary.riskScore
      = calculateRiskScore (catalogFeatures.flatMap fun f =>
          scanLines f 0 (splitOnNl t.data)) := rfl
  have hnew : (analyzeCode (t ++ "\n" ++ l) lang).summary.riskScore
      = calculateRiskScore (catalogFeatures.flatMap fun f =>
          scanLines f 0 (splitOnNl (t ++ "\n" ++ l).data)) := rfl
  rw [hold, hnew, hdata, splitOnNl_append, splitOnNl_no_newline l.data hnl,
    calculateRiskScore_eq, calculateRiskScore_eq, sum_flatMap_scan_append]
  have hextra : 0 ≤ ((catalogFeatures.flatMap fun f =>
      scanLines f (splitOnNl t.data).length [l.data]).map occurrenceBaseScore).sum :=
    sum_baseScore_nonneg _
  apply le_min (min_le_left _ _)
  exact le_trans (min_le_right _ _) (by linarith)

/-- C7 witness: the hypotheses of `riskScore_monotone` hold for the
appended line `"Temporal.Now.instant()"`, which contains no newline and
matches the unsupported `temporal-api` feature. -/
theorem riskScore_monotone_witness :
    (analyzeCode "const a = 1;" "javascript").summary.riskScore ≤
      (analyzeCode ("const a = 1;" ++ "\n" ++ "Temporal.Now.instant()") "javascript").summary.riskScore :=
  riskScore_monotone "const a = 1;" "Temporal.Now.instant()" "javascript" (by decide)
    ⟨temporalFeature, by simp [catalogFeatures], rfl, by decide⟩

lemma countP_scanLines_ne (f g : Feature) (hid : g.id ≠ f.id) (n : Nat) (L : List (List Char)) :
    ∀ j, (scanLines g j L).countP (fun occ => occ.id == f.id && occ.line == n) = 0 := by
  induction L with
  | nil => intro j; simp [scanLines]
  | cons l rest ih =>
    intro j
    simp only [scanLines, List.countP_append, ih]
    cases hp : g.pattern l <;> simp [List.countP_cons, hid]

lemma countP_scanLines_line (f : Feature) (L : List (List Char)) :
    ∀ (j n : Nat),
      (scanLines f j L).countP (fun occ => occ.id == f.id && occ.line == n) =
        (match L.get? (n - (j + 1)) with
         | some l => if j + 1 ≤ n ∧ (f.pattern l).isSome = true then 1 else 0
         | none => 0) := by
  induction L with
  | nil => intro j n; simp [scanLines]
  | cons l rest ih =>
    intro j n
    simp only [scanLines, List.countP_append, ih]
    rcases Nat.lt_trichotomy n (j + 1) with hlt | heq | hgt
    · have e1 : n - (j + 1) = 0 := by omega
      have e2 : n - (j + 1 + 1) = 0 := by omega
      have hne : ¬ (j + 1 ≤ n) := by omega
      have hne2 : ¬ (j + 1 + 1 ≤ n) := by omega
      have hne3 : ¬ (j + 1 = n) := by omega
      rw [e1, e2]
      cases hp : f.pattern l <;> cases hr : rest.get? 0 <;>
        simp [List.countP_cons, hne, hne2, hne3]
    · have e1 : n - (j + 1) = 0 := by omega
      have e2 : n - (j + 1 + 1) = 0 := by omega
      have ht1 : j + 1 ≤ n := by omega
      have hne2 : ¬ (j + 1 + 1 ≤ n) := by omega
      rw [e1, e2]
      cases hp : f.pattern l <;> cases hr : rest.get? 0 <;>
        simp [List.countP_cons, ht1, hne2, heq.symm, hp]
    · have e1 : n - (j + 1) = (n - (j + 1 + 1)) + 1 := by omega
      have ht1 : j + 1 ≤ n := by omega
      have ht2 : j + 1 + 1 ≤ n := by omega
      have hne3 : ¬ (j + 1 = n) := by omega
      rw [e1, List.get?_cons_succ]
      cases hp : f.pattern l <;> cases hr : rest.get? (n - (j + 1 + 1)) <;>
        simp [List.countP_cons, ht1, ht2, hne3]

lemma countP_flatMap_scan_zero (f : Feature) (n : Nat) (L : List (List Char)) :
    ∀ (gs : List Feature), (∀ h ∈ gs, h.id ≠ f.id) →
      ((gs.flatMap fun g => scanLines g 0 L).countP
        fun occ => occ.id == f.id && occ.line == n) = 0 := by
  intro gs
  induction gs with
  | nil => intro _; simp
  | cons g gs ih =>
    intro hall
    rw [List.flatMap_cons, List.countP_append,
      countP_scanLines_ne f g (hall g (by simp)) n L 0,
      ih (fun h hh => hall h (by simp [hh]))]

lemma countP_flatMap_scan (f : Feature) (n : Nat) (L : List (List Char)) :
    ∀ (F : List Feature), (F.map fun g => g.id).Nodup → f ∈ F →
      ((F.flatMap fun g => scanLines g 0 L).countP
          fun occ => occ.id == f.id && occ.line == n)
        = (scanLines f 0 L).countP fun occ => occ.id == f.id && occ.line == n := by
  intro F
  induction F with
  | nil => intro _ h; simp at h
  | cons g gs ih =>
    intro hnd hmem
    simp only [List.map_cons, List.nodup_cons] at hnd
    obtain ⟨hgid, hnd'⟩ := hnd
    rw [List.flatMap_cons, List.countP_append]
    rcases List.mem_cons.mp hmem with rfl | hmem'
    · rw [countP_flatMap_scan_zero f n L gs
        (fun h hh hcontra => hgid (hcontra ▸ List.mem_map.mpr ⟨h, hh, rfl⟩))]
      simp
    · have hgne : g.id ≠ f.id := by
        intro hcontra
        exact hgid (hcontra ▸ List.mem_map.mpr ⟨f, hmem', rfl⟩)
      rw [countP_scanLines_ne f g hgne n L 0, ih hnd' hmem']
      simp

/-- C4: for every input text, every catalog feature and every line index,
`analyze` records exactly one occurrence of that feature on that line
when the feature's pattern matches the line — regardless of how many
times the pattern occurs within the line, since matching is single and
non-global — and none otherwise; in particular never two. -/
theorem analyze_one_occurrence_per_line (code lang : String) (f : Feature) (i : Nat)
    (hf : f ∈ catalogFeatures) :
    ((analyzeCode code lang).issues.countP fun occ => occ.id == f.id && occ.line == i + 1)
      = (match (splitOnNl code.data).get? i with
         | some l => if (f.pattern l).isSome = true then 1 else 0
         | none => 0) := by
  have hnd : (catalogFeatures.map fun g => g.id).Nodup := by decide
  have h1 : (analyzeCode code lang).issues
      = catalogFeatures.flatMap fun g => scanLines g 0 (splitOnNl code.data) := rfl
  rw [h1, countP_flatMap_scan f (i + 1) (splitOnNl code.data) catalogFeatures hnd hf,
    countP_scanLines_line f (splitOnNl code.data) 0 (i + 1)]
  have e1 : i + 1 - (0 + 1) = i := by omega
  rw [e1]
  cases hr : (splitOnNl code.data).get? i <;> simp

/-- C4 witness: the hypothesis of `analyze_one_occurrence_per_line` holds
for the `nullish-coalescing` feature, and on the line `"a ?? b ?? c"`,
which contains the pattern `??` twice, exactly one occurrence is
recorded. -/
theorem analyze_one_occurrence_per_line_witness :
    ((analyzeCode "a ?? b ?? c" "javascript").issues.countP
      fun occ => occ.id == nullishCoalescingFeature.id && occ.line == 0 + 1) = 1 := by
  rw [analyze_one_occurrence_per_line "a ?? b ?? c" "javascript" nullishCoalescingFeature 0
    (by simp [catalogFeatures])]
  decide
